import Mathlib

/-!
Verification of the workflow-orchestration core of the research-paper
assistant (graph.py / state.py / configuration.py / utils.py).

The Python modules are shallowly embedded: each stage function of the
LangGraph workflow becomes a pure Lean function `St → Oracle → St`, where
`Oracle` packages the responses of the external generation/retrieval
backends consumed by that single stage invocation (the LLM reply strings,
the outcome of `json.loads` on them, and the behaviour of the Tavily
search backend).  Python dicts that the code relies on for insertion
order (`knowledge_gaps`, `sections`, `outline`) are embedded as ordered
association lists with Python's assignment/deletion semantics.
-/

namespace Walker

/-- Python `s.strip()`: remove leading and trailing whitespace. -/
def pyStrip (s : String) : String :=
  ⟨((s.data.dropWhile Char.isWhitespace).reverse.dropWhile Char.isWhitespace).reverse⟩

/-- Python `s.lower()`. -/
def pyLower (s : String) : String :=
  ⟨s.data.map Char.toLower⟩

/-- Python `s[:n]`: the first `n` characters. -/
def pyTake (s : String) (n : Nat) : String :=
  ⟨s.data.take n⟩

/-- Python `s.startswith(pat)`. -/
def pyStartsWith (s pat : String) : Bool :=
  pat.data.isPrefixOf s.data

/-- Python `s.replace(old, new)` for single-character `old`/`new`. -/
def pyReplaceChar (s : String) (old new : Char) : String :=
  ⟨s.data.map (fun c => if c = old then new else c)⟩

/-- Splitting a character list at every occurrence of `sep`. -/
def splitCharAux (sep : Char) : List Char → List (List Char)
  | [] => [[]]
  | c :: rest =>
    match splitCharAux sep rest with
    | [] => [[c]]
    | h :: t => if c = sep then [] :: h :: t else (c :: h) :: t

/-- Python `s.split(sep)` for a single-character separator. -/
def pySplitChar (s : String) (sep : Char) : List String :=
  (splitCharAux sep s.data).map (fun l => ⟨l⟩)

/-- Python `sep.join(parts)`. -/
def pyJoin (sep : String) : List String → String
  | [] => ""
  | [x] => x
  | x :: y :: xs => x ++ sep ++ pyJoin sep (y :: xs)

/-- Python `str(x)` of an `Optional[str]` field as it appears inside an
f-string: `None` prints as the literal string `"None"`. -/
def pyStr : Option String → String
  | none => "None"
  | some s => s

/-- Python truthiness of an `Optional[str]`: `None` and `""` are falsy. -/
def pyTruthyStr : Option String → Bool
  | none => false
  | some s => s != ""

/-- Auxiliary for substring containment on character lists. -/
def hasInfixAux (pat : List Char) : List Char → Bool
  | [] => pat.isEmpty
  | c :: rest => pat.isPrefixOf (c :: rest) || hasInfixAux pat rest

/-- Python's `pat in s` substring test on strings. -/
def containsSubstr (s pat : String) : Bool :=
  hasInfixAux pat.data s.data

/-- Python dict assignment `d[k] = v` on an insertion-ordered assoc list:
an existing key keeps its position and gets the new value; a new key is
appended at the end. -/
def dictSet {α : Type} (l : List (String × α)) (k : String) (v : α) :
    List (String × α) :=
  match l with
  | [] => [(k, v)]
  | (k', v') :: rest =>
    if k' = k then (k, v) :: rest else (k', v') :: dictSet rest k v

/-- Python dict lookup `d.get(k)` on an assoc list. -/
def dictGet {α : Type} (l : List (String × α)) (k : String) : Option α :=
  match l with
  | [] => none
  | (k', v) :: rest => if k' = k then some v else dictGet rest k

/-- A Tavily search-result record (utils.py: title/url/content/raw_content). -/
structure Source where
  title : String
  url : String
  content : String
  raw_content : Option String
deriving DecidableEq, Repr

/-- A raw Tavily search response: a dict with a `results` list. -/
structure SearchResponse where
  results : List Source
deriving DecidableEq, Repr

/-- Behaviour of the Tavily retrieval backend for one call of
`tavily_search` (utils.py lines 99-151): the API key may be missing from
the environment, the call may raise, or it returns a response. -/
inductive TavilyBackend where
  | noApiKey
  | searchOk (r : SearchResponse)
  | searchRaises (msg : String)
deriving DecidableEq, Repr

/-- utils.py `tavily_search` (lines 99-151).  When `TAVILY_API_KEY` is
absent it returns a dict holding a single "API Key Error" placeholder
record; when the client raises it returns a single "Error in search"
placeholder record; otherwise it returns the backend's response.  The
query / `include_raw_content` / `max_results` arguments only parameterize
the external call, whose outcome is the `backend` value. -/
def tavily_search (backend : TavilyBackend) (_query : String)
    (_include_raw_content : Bool) (_max_results : Nat) : SearchResponse :=
  match backend with
  | .noApiKey =>
    { results := [{ title := "API Key Error"
                    url := "https://example.com"
                    content := "Tavily API key not found. Please set the TAVILY_API_KEY environment variable."
                    raw_content := some "" }] }
  | .searchOk r => r
  | .searchRaises e =>
    { results := [{ title := "Error in search"
                    url := "https://example.com"
                    content := "Search failed: " ++ e ++ ". Please check your Tavily API key."
                    raw_content := some "" }] }

/-- One iteration of the dedup loop of
`deduplicate_and_format_sources` (utils.py lines 36-38): keep the record
only when its URL is not yet present. -/
def dedupInsert (acc : List Source) (source : Source) : List Source :=
  if acc.any (fun s => s.url == source.url) then acc else acc ++ [source]

/-- utils.py `deduplicate_and_format_sources`, lines 34-38: the dict
`unique_sources` keyed by URL, first-seen record wins, iterated in
insertion order. -/
def dedupByUrl (sources_list : List Source) : List Source :=
  sources_list.foldl dedupInsert []

/-- utils.py `deduplicate_and_format_sources`, lines 41-56: the formatted
block for one deduplicated source, with the hard character cap
`max_tokens_per_source * 4` on `raw_content` and the "... [truncated]"
marker. -/
def formatOneSource (max_tokens_per_source : Nat) (include_raw_content : Bool)
    (source : Source) : String :=
  "Source " ++ source.title ++ ":\n===\n" ++
  "URL: " ++ source.url ++ "\n===\n" ++
  "Most relevant content from source: " ++ source.content ++ "\n===\n" ++
  (if include_raw_content then
    let char_limit := max_tokens_per_source * 4
    let raw_content := source.raw_content.getD ""
    let raw_content :=
      if raw_content.length > char_limit then
        pyTake raw_content char_limit ++ "... [truncated]"
      else raw_content
    "Full source content limited to " ++ toString max_tokens_per_source ++
      " tokens: " ++ raw_content ++ "\n\n"
   else "")

/-- utils.py `deduplicate_and_format_sources` (lines 7-58) on the single
response dict it receives from graph.py: dedup by URL, then format. -/
def deduplicate_and_format_sources (resp : SearchResponse)
    (max_tokens_per_source : Nat) (include_raw_content : Bool) : String :=
  pyStrip ("Sources:\n\n" ++
    String.join ((dedupByUrl resp.results).map
      (formatOneSource max_tokens_per_source include_raw_content)))

/-- One knowledge-gap value as consumed by `targeted_research`
(graph.py lines 206-210 read it with `.get` and defaults, so every field
is optional). -/
structure Gap where
  description : Option String
  importance : Option String
  research_questions : List String
deriving DecidableEq, Repr

/-- configuration.py line 17: `max_targeted_research_attempts: int = 2`. -/
def max_targeted_research_attempts : Nat := 2

/-- configuration.py line 15: `max_web_research_loops: int = 3`. -/
def max_web_research_loops : Nat := 3

/-- The `ResearchPaperState` dataclass (state.py lines 7-71), restricted
to the fields the graph nodes read or write.  The fields
`validation_status`, `human_verification_required`, `human_feedback`,
`verification_history` and `verification_step` are never touched by any
graph node and are omitted.  `sections` and `outline` are
insertion-ordered Python dicts, embedded as assoc lists;
`knowledge_gaps` likewise.  The `citations` dict is split into its two
keys; its `formatted` entry starts as an (unread) empty list in Python
and is replaced by a string in `citation_formatting`, so it is embedded
as `Option String` with `none` for the initial unread value. -/
structure St where
  research_topic : String
  working_title : Option String
  thesis_statement : Option String
  search_query : Option String
  web_research_results : List SearchResponse
  sources_gathered : List String
  research_loop_count : Nat
  literature_summary : Option String
  validation_result : Option (String × Bool)
  validation_passed : Bool
  knowledge_gaps : List (String × Gap)
  outline : List (String × List String)
  sections : List (String × Option String)
  citations_sources : List Source
  citations_formatted : Option String
  current_section : String
  completed_sections : List String
  all_sections_complete : Bool
  coherence_analysis : Option String
  running_summary : Option String
  final_paper : Option String
  citation_style : String
deriving DecidableEq, Repr

/-- The external-backend responses consumed by one stage execution.  For
each `llm.invoke` the oracle carries the reply `response.content`; where
the stage then runs `json.loads` and a `.get`, the oracle carries the
combined outcome directly (`none` = the `except` fallback path,
`some q` = the successfully extracted value), since the stage only ever
observes that combined outcome.  For each `tavily_search` call it
carries the backend behaviour. -/
structure Oracle where
  thesisResponse : String
  queryParse : Option String
  searchBackend : TavilyBackend
  surveyResponse : String
  validationResponse : String
  gapsParse : Option (List (String × Gap))
  targetedQueryParse : Option String
  targetedSearchBackend : TavilyBackend
  targetedSummaryResponse : String
  summaryResponse : String
  outlineResponse : String
  sectionResponse : String
  coherenceResponse : String
  citationResponse : String
  finalResponse : String
deriving Repr

/-- state.py lines 28-37: the initial `sections` dict. -/
def initSections : List (String × Option String) :=
  [("abstract", none), ("introduction", none), ("literature_review", none),
   ("methodology", none), ("results", none), ("discussion", none),
   ("conclusion", none), ("references", none)]

/-- A fresh `ResearchPaperState` holding only the topic
(state.py defaults). -/
def initState (research_topic : String) : St :=
  { research_topic := research_topic
    working_title := none
    thesis_statement := none
    search_query := none
    web_research_results := []
    sources_gathered := []
    research_loop_count := 0
    literature_summary := none
    validation_result := none
    validation_passed := false
    knowledge_gaps := []
    outline := []
    sections := initSections
    citations_sources := []
    citations_formatted := none
    current_section := "introduction"
    completed_sections := []
    all_sections_complete := false
    coherence_analysis := none
    running_summary := none
    final_paper := none
    citation_style := "APA" }

/-- graph.py lines 29-33 `initialize_research`. -/
def initialize_research (s : St) : St :=
  { s with current_section := "introduction"
           working_title := some ("Research on " ++ s.research_topic) }

/-- graph.py lines 36-58 `thesis_formulation`. -/
def thesis_formulation (s : St) (o : Oracle) : St :=
  { s with thesis_statement := some (pyStrip o.thesisResponse) }

/-- graph.py lines 61-119 `literature_survey`: query generation (with the
JSON-parse fallback `"literature review {topic}"`), one retrieval call
with `max_results=5`, per-call dedup+format, appends to
`web_research_results` and `sources_gathered`, replaces
`literature_summary`, increments `research_loop_count`. -/
def literature_survey (s : St) (o : Oracle) : St :=
  let search_query :=
    match o.queryParse with
    | some q => q
    | none => "literature review " ++ s.research_topic
  let search_results := tavily_search o.searchBackend search_query true 5
  let formatted_sources := deduplicate_and_format_sources search_results 1000 true
  { s with search_query := some search_query
           web_research_results := s.web_research_results ++ [search_results]
           sources_gathered := s.sources_gathered ++ [formatted_sources]
           literature_summary := some (pyStrip o.surveyResponse)
           research_loop_count := s.research_loop_count + 1 }

/-- graph.py lines 122-152 `validation_check`: no structured parsing; the
pass flag is the substring heuristic
`"sufficient" in r.lower() and "comprehensive" in r.lower()` (line 143),
stored in `validation_result` and `validation_passed`. -/
def validation_check (s : St) (o : Oracle) : St :=
  let validation_result := pyStrip o.validationResponse
  let validation_passed :=
    containsSubstr (pyLower validation_result) "sufficient" &&
    containsSubstr (pyLower validation_result) "comprehensive"
  { s with validation_result := some (validation_result, validation_passed)
           validation_passed := validation_passed }

/-- graph.py lines 179-185: the synthetic fallback gap substituted when
the gap list cannot be parsed. -/
def fallbackGaps : List (String × Gap) :=
  [("gap_1",
    { description := some "Unable to parse knowledge gaps"
      importance := some "N/A"
      research_questions := ["What additional information is needed?"] })]

/-- graph.py lines 155-190 `identify_knowledge_gaps`: replaces
`knowledge_gaps` with the parsed gap dict or the synthetic fallback. -/
def identify_knowledge_gaps (s : St) (o : Oracle) : St :=
  let gaps :=
    match o.gapsParse with
    | some g => g
    | none => fallbackGaps
  { s with knowledge_gaps := gaps }

/-- graph.py lines 193-267 `targeted_research`.  `if not
state.knowledge_gaps: return state`; otherwise
`list(state.knowledge_gaps.keys())[0]` picks the first inserted entry of
the dict, the gap-specific query is generated (with its JSON fallback), a
retrieval call with `max_results=3` runs, its deduped format is appended
to the source collections, the addendum is appended to
`literature_summary`, and `del state.knowledge_gaps[first_gap_key]`
removes the addressed (first) entry. -/
def targeted_research (s : St) (o : Oracle) : St :=
  match s.knowledge_gaps with
  | [] => s
  | (_first_gap_key, knowledge_gap) :: restGaps =>
    let search_query :=
      match o.targetedQueryParse with
      | some q => q
      | none => "research " ++ knowledge_gap.description.getD s.research_topic
    let search_results := tavily_search o.targetedSearchBackend search_query true 3
    let formatted_sources := deduplicate_and_format_sources search_results 1000 true
    let targeted_research_summary := pyStrip o.targetedSummaryResponse
    let updated_summary :=
      pyStr s.literature_summary ++ "\n\nAdditional Research on " ++
      knowledge_gap.description.getD "Knowledge Gap" ++ ":\n" ++
      targeted_research_summary
    { s with web_research_results := s.web_research_results ++ [search_results]
             sources_gathered := s.sources_gathered ++ [formatted_sources]
             literature_summary := some updated_summary
             knowledge_gaps := restGaps }

/-- graph.py lines 270-292 `generate_research_summary`. -/
def generate_research_summary (s : St) (o : Oracle) : St :=
  { s with running_summary := some (pyStrip o.summaryResponse) }

/-- graph.py lines 326-328: the numbered-header test of the outline
parser. -/
def isMainHeader (line : String) : Bool :=
  pyStartsWith line "1." || pyStartsWith line "2." || pyStartsWith line "3." ||
  pyStartsWith line "4." || pyStartsWith line "5." || pyStartsWith line "6." ||
  pyStartsWith line "7."

/-- Accumulator of the outline-parsing loop (graph.py lines 316-318). -/
structure OutlineAcc where
  sections : List (String × List String)
  current_section : Option String
  section_content : List String

/-- One iteration of the outline-parsing loop (graph.py lines 320-340). -/
def outlineStep (acc : OutlineAcc) (rawLine : String) : OutlineAcc :=
  let line := pyStrip rawLine
  if line == "" then acc
  else if isMainHeader line then
    let acc1 :=
      if pyTruthyStr acc.current_section && !acc.section_content.isEmpty then
        { acc with sections :=
            dictSet acc.sections (acc.current_section.getD "") acc.section_content }
      else acc
    let parts := pySplitChar line '.'
    if parts.length > 1 then
      let section_name :=
        pyReplaceChar (pyLower (pyStrip (pyJoin "." parts.tail))) ' ' '_'
      { acc1 with current_section := some section_name, section_content := [line] }
    else acc1
  else if pyTruthyStr acc.current_section then
    { acc with section_content := acc.section_content ++ [line] }
  else acc

/-- graph.py lines 315-344: parse the outline text into a section dict
(`line.split('.', 1)` is maxsplit-1, reconstructed via
`intercalate "." parts.tail`). -/
def parseOutline (outline_text : String) : List (String × List String) :=
  let acc := (pySplitChar outline_text '\n').foldl outlineStep
    { sections := [], current_section := none, section_content := [] }
  if pyTruthyStr acc.current_section && !acc.section_content.isEmpty then
    dictSet acc.sections (acc.current_section.getD "") acc.section_content
  else acc.sections

/-- graph.py lines 295-349 `generate_paper_outline`. -/
def generate_paper_outline (s : St) (o : Oracle) : St :=
  { s with outline := parseOutline (pyStrip o.outlineResponse) }

/-- graph.py lines 389-390: the fixed drafting order. -/
def section_order : List String :=
  ["abstract", "introduction", "literature_review", "methodology",
   "results", "discussion", "conclusion", "references"]

/-- graph.py lines 392-399: `section_order.index` + advance, clamped by
the `next_index < len(section_order)` guard, with the `ValueError` →
`'conclusion'` fallback for unknown section names. -/
def nextSection (current_section : String) : String :=
  match section_order.findIdx? (· == current_section) with
  | some current_index =>
    if current_index + 1 < section_order.length then
      section_order.getD (current_index + 1) current_section
    else current_section
  | none => "conclusion"

/-- graph.py lines 352-401 `draft_section`: writes
`sections[current_section]`, appends `current_section` to
`completed_sections` only when absent, and advances `current_section`. -/
def draft_section (s : St) (o : Oracle) : St :=
  let current_section := s.current_section
  let section_content := pyStrip o.sectionResponse
  { s with sections := dictSet s.sections current_section (some section_content)
           completed_sections :=
             if current_section ∈ s.completed_sections then s.completed_sections
             else s.completed_sections ++ [current_section]
           current_section := nextSection current_section }

/-- graph.py line 406: the required-section list of `completion_check`. -/
def required_sections : List String :=
  ["abstract", "introduction", "literature_review", "conclusion", "references"]

/-- graph.py lines 404-412 `completion_check`: membership of every
required section name in `completed_sections` (it does not inspect the
`sections` contents). -/
def completion_check (s : St) : St :=
  { s with all_sections_complete :=
      required_sections.all (fun sec => s.completed_sections.contains sec) }

/-- graph.py lines 415-444 `cross_section_coherence`: stores the
coherence report; the section texts are only read into the prompt. -/
def cross_section_coherence (s : St) (o : Oracle) : St :=
  { s with coherence_analysis := some (pyStrip o.coherenceResponse) }

/-- graph.py lines 447-482 `citation_formatting`: collects every raw
result record from `web_research_results`, stores the LLM-formatted
citations, and overwrites `sections['references']` — without touching
`completed_sections`. -/
def citation_formatting (s : St) (o : Oracle) : St :=
  let sources := (s.web_research_results.map SearchResponse.results).flatten
  let formatted_citations := pyStrip o.citationResponse
  { s with citations_formatted := some formatted_citations
           citations_sources := sources
           sections := dictSet s.sections "references" (some formatted_citations) }

/-- graph.py lines 485-514 `assemble_final_output`. -/
def assemble_final_output (s : St) (o : Oracle) : St :=
  { s with final_paper := some (pyStrip o.finalResponse) }

/-- graph.py lines 517-522 `route_after_validation` (returns the label
string; `build_graph` maps `"targeted_research"` to the
`identify_knowledge_gaps` node, lines 566-573). -/
def route_after_validation (s : St) : String :=
  if s.validation_passed then "draft_section" else "targeted_research"

/-- graph.py lines 524-529 `route_after_completion`. -/
def route_after_completion (s : St) : String :=
  if s.all_sections_complete then "cross_section_coherence"
  else "identify_knowledge_gaps"

/-- graph.py lines 531-536 `route_after_knowledge_gaps` (`if
state.knowledge_gaps and len(state.knowledge_gaps) > 0`). -/
def route_after_knowledge_gaps (s : St) : String :=
  if s.knowledge_gaps.isEmpty then "generate_research_summary"
  else "targeted_research"

/-- The nodes of the compiled graph (graph.py lines 545-557), plus the
`END` marker. -/
inductive Node where
  | initialize_research
  | thesis_formulation
  | literature_survey
  | validation_check
  | identify_knowledge_gaps
  | targeted_research
  | generate_research_summary
  | generate_paper_outline
  | draft_section
  | completion_check
  | cross_section_coherence
  | citation_formatting
  | assemble_final_output
  | done
deriving DecidableEq, Repr

/-- One engine step (graph.py `build_graph`, lines 539-605): execute the
current node's stage on the state, then follow the static edge or
evaluate the routing function on the produced state, using the
label-to-node mappings of the `add_conditional_edges` calls. -/
def step (n : Node) (s : St) (o : Oracle) : Node × St :=
  match n with
  | .initialize_research => (.thesis_formulation, initialize_research s)
  | .thesis_formulation => (.literature_survey, thesis_formulation s o)
  | .literature_survey => (.validation_check, literature_survey s o)
  | .validation_check =>
    let s' := validation_check s o
    (if route_after_validation s' = "draft_section" then .draft_section
     else .identify_knowledge_gaps, s')
  | .identify_knowledge_gaps =>
    let s' := identify_knowledge_gaps s o
    (if route_after_knowledge_gaps s' = "targeted_research" then .targeted_research
     else .generate_research_summary, s')
  | .targeted_research => (.validation_check, targeted_research s o)
  | .generate_research_summary => (.generate_paper_outline, generate_research_summary s o)
  | .generate_paper_outline => (.draft_section, generate_paper_outline s o)
  | .draft_section => (.completion_check, draft_section s o)
  | .completion_check =>
    let s' := completion_check s
    (if route_after_completion s' = "cross_section_coherence" then .cross_section_coherence
     else .identify_knowledge_gaps, s')
  | .cross_section_coherence => (.citation_formatting, cross_section_coherence s o)
  | .citation_formatting => (.assemble_final_output, citation_formatting s o)
  | .assemble_final_output => (.done, assemble_final_output s o)
  | .done => (.done, s)

/-- The engine configurations reachable from the entry edge
`START → initialize_research` on a fresh state, under arbitrary backend
behaviour at every step. -/
inductive Reachable : Node × St → Prop where
  | init (topic : String) : Reachable (.initialize_research, initState topic)
  | step (ns : Node × St) (o : Oracle) (h : Reachable ns) :
      Reachable (step ns.1 ns.2 o)

/-- A backend response carrying one source record with URL
`http://u`. -/
def advSearchResponse : SearchResponse :=
  { results := [{ title := "T", url := "http://u", content := "c",
                  raw_content := some "" }] }

/-- An adversarial but perfectly legal backend: the validation LLM always
replies `"no"` (which contains neither `"sufficient"` nor
`"comprehensive"`, so validation never passes), the gap-analysis reply
never parses (so the synthetic gap is substituted and the gap dict is
never empty), and every retrieval returns the same single source. -/
def advOracle : Oracle :=
  { thesisResponse := "t"
    queryParse := none
    searchBackend := .searchOk advSearchResponse
    surveyResponse := "s"
    validationResponse := "no"
    gapsParse := none
    targetedQueryParse := none
    targetedSearchBackend := .searchOk advSearchResponse
    targetedSummaryResponse := "ts"
    summaryResponse := "rs"
    outlineResponse := ""
    sectionResponse := "sec"
    coherenceResponse := "co"
    citationResponse := "cit"
    finalResponse := "f" }

/-- The engine run driven by `advOracle` at every step, from the entry
node on a fresh state. -/
def advTrace : Nat → Node × St
  | 0 => (.initialize_research, initState "topic")
  | n + 1 => step (advTrace n).1 (advTrace n).2 advOracle

/-- How many of the first `n` engine steps of `advTrace` execute the
`validation_check` node. -/
def validationVisits (n : Nat) : Nat :=
  ((List.range n).filter (fun i => (advTrace i).1 == Node.validation_check)).length

theorem dictGet_dictSet_self {α : Type} (l : List (String × α)) (k : String) (v : α) :
    dictGet (dictSet l k v) k = some v := by
  induction l with
  | nil => simp [dictSet, dictGet]
  | cons p rest ih =>
    obtain ⟨k', v'⟩ := p
    by_cases h : k' = k
    · simp [dictSet, dictGet, h]
    · simp [dictSet, dictGet, h, ih]

theorem dictGet_dictSet_ne {α : Type} (l : List (String × α)) (k k' : String) (v : α)
    (h : k' ≠ k) : dictGet (dictSet l k v) k' = dictGet l k' := by
  induction l with
  | nil => simp [dictSet, dictGet, Ne.symm h]
  | cons p rest ih =>
    obtain ⟨k₀, v₀⟩ := p
    by_cases h0 : k₀ = k
    · subst h0
      simp [dictSet, dictGet, Ne.symm h]
    · by_cases h1 : k₀ = k'
      · subst h1
        simp [dictSet, dictGet, h0, h]
      · simp [dictSet, dictGet, h0, h1, ih]

theorem dictGet_values_none {l : List (String × Option String)}
    (hl : ∀ p ∈ l, p.2 = none) (k : String) (c : String) :
    dictGet l k ≠ some (some c) := by
  induction l with
  | nil => simp [dictGet]
  | cons p rest ih =>
    obtain ⟨k', v⟩ := p
    have hv : v = none := hl (k', v) (by simp)
    subst hv
    intro h
    by_cases hk : k' = k
    · simp [dictGet, hk] at h
    · rw [dictGet, if_neg hk] at h
      exact ih (fun q hq => hl q (by simp [hq])) h

/-- The documented state invariant: a section with non-empty content has
been recorded in `completed_sections`. -/
def sectionInv (s : St) : Prop :=
  ∀ name c, dictGet s.sections name = some (some c) → c ≠ "" →
    name ∈ s.completed_sections

/-- The nodes reachable only after `completion_check` has confirmed every
required section (including `references`) complete. -/
def refNode (n : Node) : Prop :=
  n = .cross_section_coherence ∨ n = .citation_formatting ∨
  n = .assemble_final_output ∨ n = .done

/-- The inductive engine invariant: the section/completed invariant, no
duplicates in `completed_sections`, and — at the post-completion nodes —
membership of `references` in `completed_sections`. -/
def MasterInv (n : Node) (s : St) : Prop :=
  sectionInv s ∧ s.completed_sections.Nodup ∧
  (refNode n → "references" ∈ s.completed_sections)

theorem targeted_research_sections (s : St) (o : Oracle) :
    (targeted_research s o).sections = s.sections := by
  unfold targeted_research; split <;> rfl

theorem targeted_research_completed (s : St) (o : Oracle) :
    (targeted_research s o).completed_sections = s.completed_sections := by
  unfold targeted_research; split <;> rfl

theorem not_refNode_ite (c : Prop) [Decidable c] (a b : Node)
    (ha : ¬ refNode a) (hb : ¬ refNode b) : ¬ refNode (if c then a else b) := by
  split
  · exact ha
  · exact hb

theorem masterInv_step (n : Node) (s : St) (o : Oracle) (h : MasterInv n s) :
    MasterInv (step n s o).1 (step n s o).2 := by
  obtain ⟨hsec, hnodup, href⟩ := h
  cases n with
  | initialize_research =>
    exact ⟨hsec, hnodup, by intro hr; simp [refNode, step] at hr⟩
  | thesis_formulation =>
    exact ⟨hsec, hnodup, by intro hr; simp [refNode, step] at hr⟩
  | literature_survey =>
    exact ⟨hsec, hnodup, by intro hr; simp [refNode, step] at hr⟩
  | validation_check =>
    refine ⟨hsec, hnodup, ?_⟩
    intro hr
    exact absurd hr (not_refNode_ite _ _ _ (by simp [refNode]) (by simp [refNode]))
  | identify_knowledge_gaps =>
    refine ⟨hsec, hnodup, ?_⟩
    intro hr
    exact absurd hr (not_refNode_ite _ _ _ (by simp [refNode]) (by simp [refNode]))
  | targeted_research =>
    refine ⟨?_, ?_, by intro hr; simp [refNode, step] at hr⟩
    · simp only [sectionInv, step, targeted_research_sections, targeted_research_completed]
      exact hsec
    · simp only [step, targeted_research_completed]
      exact hnodup
  | generate_research_summary =>
    exact ⟨hsec, hnodup, by intro hr; simp [refNode, step] at hr⟩
  | generate_paper_outline =>
    exact ⟨hsec, hnodup, by intro hr; simp [refNode, step] at hr⟩
  | draft_section =>
    refine ⟨?_, ?_, by intro hr; simp [refNode, step] at hr⟩
    · intro name c hget hne
      show name ∈ (draft_section s o).completed_sections
      by_cases hn : name = s.current_section
      · subst hn
        simp only [draft_section]
        split
        · assumption
        · simp
      · have hget' : dictGet s.sections name = some (some c) := by
          have hget2 : dictGet (dictSet s.sections s.current_section
              (some (pyStrip o.sectionResponse))) name = some (some c) := hget
          rwa [dictGet_dictSet_ne _ _ _ _ hn] at hget2
        have hmem := hsec name c hget' hne
        simp only [draft_section]
        split
        · exact hmem
        · exact List.mem_append_left _ hmem
    · show ((draft_section s o).completed_sections).Nodup
      simp only [draft_section]
      split
      · exact hnodup
      · next hni =>
        simp [List.nodup_append, hnodup, hni]
  | completion_check =>
    refine ⟨hsec, hnodup, ?_⟩
    intro hr
    by_cases hc : route_after_completion (completion_check s) = "cross_section_coherence"
    · have hflag : (completion_check s).all_sections_complete = true := by
        by_contra hf
        simp only [route_after_completion, hf] at hc
        rw [if_neg (by simp [Bool.not_eq_true] at hf; simp [hf])] at hc
        exact absurd hc (by decide)
      have hall : required_sections.all
          (fun sec => s.completed_sections.contains sec) = true := hflag
      have : s.completed_sections.contains "references" = true := by
        have := List.all_eq_true.mp hall "references" (by simp [required_sections])
        exact this
      exact List.elem_iff.mp this
    · exact absurd hr (by simp only [step, if_neg hc, refNode]; simp [refNode])
  | cross_section_coherence =>
    exact ⟨hsec, hnodup, fun _ => href (by simp [refNode])⟩
  | citation_formatting =>
    refine ⟨?_, hnodup, fun _ => href (by simp [refNode])⟩
    intro name c hget hne
    have hrefmem : "references" ∈ s.completed_sections := href (by simp [refNode])
    by_cases hn : name = "references"
    · subst hn; exact hrefmem
    · have hget' : dictGet s.sections name = some (some c) := by
        have hget2 : dictGet (dictSet s.sections "references"
            (some (pyStrip o.citationResponse))) name = some (some c) := hget
        rwa [dictGet_dictSet_ne _ _ _ _ hn] at hget2
      exact hsec name c hget' hne
  | assemble_final_output =>
    exact ⟨hsec, hnodup, fun _ => href (by simp [refNode])⟩
  | done =>
    exact ⟨hsec, hnodup, fun _ => href (by simp [refNode])⟩

theorem dedupFold_urls_nodup (l acc : List Source)
    (h : (acc.map Source.url).Nodup) :
    ((l.foldl dedupInsert acc).map Source.url).Nodup := by
  induction l generalizing acc with
  | nil => simpa using h
  | cons s t ih =>
    simp only [List.foldl_cons]
    apply ih
    unfold dedupInsert
    split
    · exact h
    · next hany =>
      have hne : ∀ x ∈ acc, ¬(x.url == s.url) = true := by
        intro x hx heq
        exact hany (List.any_eq_true.mpr ⟨x, hx, heq⟩)
      simp only [List.map_append, List.map_cons, List.map_nil]
      rw [List.nodup_append]
      refine ⟨h, by simp, ?_⟩
      intro a ha hb
      simp only [List.mem_singleton] at hb
      subst hb
      obtain ⟨x, hx, hxu⟩ := List.mem_map.mp ha
      exact hne x hx (by simp [hxu])

theorem dedupFold_find? (l : List Source) : ∀ (acc : List Source) (u : String),
    (l.foldl dedupInsert acc).find? (fun r => r.url == u) =
      (acc.find? (fun r => r.url == u)).or (l.find? (fun r => r.url == u)) := by
  induction l with
  | nil => intro acc u; simp
  | cons s t ih =>
    intro acc u
    rw [List.foldl_cons, ih]
    by_cases hp : s.url = u
    · have hcons : (s :: t).find? (fun r => r.url == u) = some s := by
        rw [List.find?_cons_of_pos]
        simp [hp]
      rw [hcons]
      by_cases hany : (acc.any fun x => x.url == s.url) = true
      · have hsome : (acc.find? fun r => r.url == u).isSome := by
          obtain ⟨x, hx, hxu⟩ := List.any_eq_true.mp hany
          refine List.find?_isSome.mpr ⟨x, hx, ?_⟩
          have h1 : x.url = s.url := by simpa using hxu
          simp [h1, hp]
        obtain ⟨y, hy⟩ := Option.isSome_iff_exists.mp hsome
        rw [show dedupInsert acc s = acc from by simp [dedupInsert, hany], hy]
        rfl
      · have hia : dedupInsert acc s = acc ++ [s] := by simp [dedupInsert, hany]
        rw [hia, List.find?_append]
        have h1 : ([s].find? fun r => r.url == u) = some s := by
          rw [List.find?_cons_of_pos]
          simp [hp]
        rw [h1]
        cases acc.find? (fun r => r.url == u) <;> rfl
    · have hcons : (s :: t).find? (fun r => r.url == u) = t.find? (fun r => r.url == u) := by
        rw [List.find?_cons_of_neg]
        simp [hp]
      rw [hcons]
      by_cases hany : (acc.any fun x => x.url == s.url) = true
      · rw [show dedupInsert acc s = acc from by simp [dedupInsert, hany]]
      · have hia : dedupInsert acc s = acc ++ [s] := by simp [dedupInsert, hany]
        rw [hia, List.find?_append]
        have h1 : ([s].find? fun r => r.url == u) = none := by
          rw [List.find?_cons_of_neg]
          · rfl
          · simp [hp]
        rw [h1, Option.or_none]

theorem dedupFold_of_disjoint (l : List Source) :
    ∀ acc : List Source,
    (∀ x ∈ l, ∀ y ∈ acc, ¬(y.url == x.url) = true) →
    ((l.map Source.url).Nodup) →
    l.foldl dedupInsert acc = acc ++ l := by
  induction l with
  | nil => intro acc _ _; simp
  | cons s t ih =>
    intro acc hd hl
    rw [List.map_cons, List.nodup_cons] at hl
    obtain ⟨hsnot, htn⟩ := hl
    have hins : dedupInsert acc s = acc ++ [s] := by
      unfold dedupInsert
      rw [if_neg]
      intro hany
      obtain ⟨x, hx, hxu⟩ := List.any_eq_true.mp hany
      exact hd s (by simp) x hx hxu
    have hd2 : ∀ x ∈ t, ∀ y ∈ acc ++ [s], ¬(y.url == x.url) = true := by
      intro x hx y hy
      rcases List.mem_append.mp hy with hya | hys
      · exact hd x (List.mem_cons_of_mem s hx) y hya
      · rw [List.mem_singleton] at hys
        subst hys
        intro hbeq
        have hsu : y.url = x.url := by simpa using hbeq
        have hmm : y.url ∈ t.map Source.url := by
          rw [hsu]
          exact List.mem_map.mpr ⟨x, hx, rfl⟩
        exact hsnot hmm
    rw [List.foldl_cons, hins, ih (acc ++ [s]) hd2 htn, List.append_assoc]
    rfl

theorem dedupFold_mem (l : List Source) :
    ∀ acc x, x ∈ l.foldl dedupInsert acc → x ∈ acc ∨ x ∈ l := by
  induction l with
  | nil =>
    intro acc x h
    exact Or.inl (by simpa using h)
  | cons s t ih =>
    intro acc x h
    rw [List.foldl_cons] at h
    rcases ih (dedupInsert acc s) x h with hacc | ht
    · unfold dedupInsert at hacc
      split at hacc
      · exact Or.inl hacc
      · rcases List.mem_append.mp hacc with h1 | h2
        · exact Or.inl h1
        · rw [List.mem_singleton] at h2
          exact Or.inr (by simp [h2])
    · exact Or.inr (List.mem_cons_of_mem s ht)

theorem findIdx?_beq_eq_none {l : List String} {x : String} (h : x ∉ l) :
    ∀ i, l.findIdx? (· == x) i = none := by
  induction l with
  | nil => intro i; rfl
  | cons a t ih =>
    intro i
    rw [List.findIdx?_cons]
    have hax : ¬(a == x) = true := by
      simp only [beq_iff_eq]
      intro hax
      exact h (by rw [← hax]; exact List.mem_cons_self a t)
    rw [if_neg hax]
    exact ih (fun hm => h (List.mem_cons_of_mem a hm)) (i + 1)

theorem reachable_masterInv (ns : Node × St) (h : Reachable ns) :
    MasterInv ns.1 ns.2 := by
  induction h with
  | init topic =>
    refine ⟨?_, by simp [initState], by intro hr; simp [refNode, step] at hr⟩
    intro name c hget _
    exact absurd hget (dictGet_values_none (by intro p hp; fin_cases hp <;> rfl) name c)
  | step ns o _ ih =>
    exact masterInv_step ns.1 ns.2 o ih

theorem hasInfixAux_iff (pat : List Char) :
    ∀ l, hasInfixAux pat l = true ↔ ∃ s t, s ++ (pat ++ t) = l := by
  intro l
  induction l with
  | nil =>
    simp only [hasInfixAux, List.isEmpty_iff]
    constructor
    · intro h
      exact ⟨[], [], by simp [h]⟩
    · rintro ⟨s, t, hst⟩
      rcases List.append_eq_nil.mp hst with ⟨-, h2⟩
      exact (List.append_eq_nil.mp h2).1
  | cons c rest ih =>
    simp only [hasInfixAux, Bool.or_eq_true]
    constructor
    · rintro (hpre | hinf)
      · obtain ⟨t, ht⟩ := List.isPrefixOf_iff_prefix.mp hpre
        exact ⟨[], t, by simpa using ht⟩
      · obtain ⟨s, t, hst⟩ := ih.mp hinf
        exact ⟨c :: s, t, by simp [hst]⟩
    · rintro ⟨s, t, hst⟩
      cases s with
      | nil =>
        exact Or.inl (List.isPrefixOf_iff_prefix.mpr ⟨t, by simpa using hst⟩)
      | cons a s₂ =>
        simp only [List.cons_append] at hst
        injection hst with h1 h2
        exact Or.inr (ih.mpr ⟨s₂, t, h2⟩)

/-- Python's `pat in s` holds exactly when `pat` occurs contiguously in
`s`. -/
theorem containsSubstr_iff (s pat : String) :
    containsSubstr s pat = true ↔ ∃ l r, l ++ (pat.data ++ r) = s.data :=
  hasInfixAux_iff pat.data s.data

/-- C1: under the adversarial (but legal) backend `advOracle` — the
validation verdict is never "sufficient"/"comprehensive" and gap
analysis always yields a gap — the engine executes `validation_check`
four times within the first thirteen steps, strictly more than the
claimed bound `maxTargetedResearchAttempts + 1 = 3`, without ever
reaching `draft_section`: the graph enforces no targeted-research
attempt cap (`max_targeted_research_attempts` is defined in
configuration.py but never read by graph.py), so the validation loop is
unbounded. -/
theorem C1_loop_bound_violated :
    validationVisits 13 = 4 ∧
    max_targeted_research_attempts + 1 < 4 ∧
    ∀ i ∈ List.range 13, (advTrace i).1 ≠ Node.draft_section :=
  ⟨by decide, by decide, by decide⟩

/-- C2 counterexample: with the Tavily API key unconfigured,
`tavily_search` does not return an empty result set — it returns a
singleton placeholder record ("API Key Error", url
`https://example.com`), refuting the claim that the result set is
empty. -/
theorem C2_counterexample :
    (tavily_search .noApiKey "renewable energy storage" true 5).results ≠ [] := by
  decide

/-- C2 (amended): when the retrieval backend is unconfigured (missing
API key) or raises, `tavily_search` does not raise but returns a
response whose result set is exactly one placeholder error record —
title "API Key Error" resp. "Error in search", url
`https://example.com`, with the corresponding advisory content and empty
raw content — so the workflow proceeds with degraded literature
coverage. -/
theorem C2_placeholder_result (q e : String) (inc : Bool) (mr : Nat) :
    (tavily_search .noApiKey q inc mr).results =
      [{ title := "API Key Error"
         url := "https://example.com"
         content := "Tavily API key not found. Please set the TAVILY_API_KEY environment variable."
         raw_content := some "" }] ∧
    (tavily_search (.searchRaises e) q inc mr).results =
      [{ title := "Error in search"
         url := "https://example.com"
         content := "Search failed: " ++ e ++ ". Please check your Tavily API key."
         raw_content := some "" }] :=
  ⟨rfl, rfl⟩

/-- C3 counterexample state: a literature survey followed by one
targeted-research pass, both retrieving the same URL `http://u`. -/
def c3State : St :=
  targeted_research
    (identify_knowledge_gaps (literature_survey (initState "t") advOracle) advOracle)
    advOracle

/-- C3 counterexample: deduplication happens only within a single
ingest; across two retrieval calls that return the same URL,
`sources_gathered` ends up as exactly two identical formatted batches —
each the deduplicated digest of the single record with URL `http://u` —
so both entries contain a record with URL `http://u` (and the
per-ingest deduplicated record batches both consist of exactly that
URL), refuting "sourcesGathered never contains two records with the
same URL". -/
theorem C3_counterexample :
    c3State.sources_gathered =
      [deduplicate_and_format_sources advSearchResponse 1000 true,
       deduplicate_and_format_sources advSearchResponse 1000 true] ∧
    c3State.sources_gathered.map (fun f => containsSubstr f "URL: http://u") =
      [true, true] ∧
    c3State.web_research_results.map (fun r => (dedupByUrl r.results).map Source.url) =
      [["http://u"], ["http://u"]] := by
  refine ⟨?_, ?_, ?_⟩
  · decide
  · decide
  · decide

/-- C3 (amended): each single deduplication call keeps at most one
record per distinct URL (the output URLs are nodup), every kept record
is one of the input records and the one kept for any URL is the
first-seen one (`find?` by URL is preserved), and the deduplication is
idempotent; the claim's state-level consequence fails because
`sourcesGathered` appends one deduplicated batch per retrieval call and
never deduplicates across batches. -/
theorem C3_dedup_per_call (l : List Source) :
    ((dedupByUrl l).map Source.url).Nodup ∧
    (∀ x ∈ dedupByUrl l, x ∈ l) ∧
    (∀ u, (dedupByUrl l).find? (fun r => r.url == u) = l.find? (fun r => r.url == u)) ∧
    dedupByUrl (dedupByUrl l) = dedupByUrl l := by
  refine ⟨dedupFold_urls_nodup l [] (by simp), ?_, ?_, ?_⟩
  · intro x hx
    rcases dedupFold_mem l [] x hx with hacc | hl
    · exact absurd hacc (List.not_mem_nil x)
    · exact hl
  · intro u
    have h := dedupFold_find? l [] u
    simpa [dedupByUrl] using h
  · have hnodup := dedupFold_urls_nodup l [] (by simp)
    have h := dedupFold_of_disjoint (dedupByUrl l) [] (by simp) (by simpa [dedupByUrl] using hnodup)
    simpa [dedupByUrl] using h

/-- C4 counterexample: the stage `citation_formatting` writes non-empty
content into `sections['references']` but does not record `references`
in `completedSections` — refuting "every stage that writes a section's
content also records that section as completed". -/
theorem C4_counterexample :
    dictGet (citation_formatting (initState "t") advOracle).sections "references" =
      some (some "cit") ∧
    "references" ∉ (citation_formatting (initState "t") advOracle).completed_sections := by
  constructor
  · decide
  · decide

/-- C4 (amended): on every reachable engine configuration the invariant
holds — any section name with non-empty content in `sections` is a
member of `completedSections`; `draft_section` records the section
itself, while `citation_formatting` relies on `references` already being
complete, which the routing through `completion_check` guarantees. -/
theorem C4_section_completed_invariant (ns : Node × St) (h : Reachable ns) :
    sectionInv ns.2 :=
  (reachable_masterInv ns h).1

/-- C4 witness: the invariant instantiated at the initial
configuration. -/
theorem C4_section_completed_invariant_witness : sectionInv (initState "t") :=
  C4_section_completed_invariant (.initialize_research, initState "t")
    (Reachable.init "t")

/-- C5 counterexample: `completion_check` inspects only membership in
`completedSections`, not section contents — a state whose
`completed_sections` lists all required names while every section is
still empty gets `all_sections_complete = true`, refuting "true iff
every required name has non-empty content stored in sections". -/
theorem C5_counterexample :
    (completion_check
      { initState "t" with completed_sections := required_sections }).all_sections_complete
        = true ∧
    dictGet ({ initState "t" with
        completed_sections := required_sections }).sections "abstract" = some none := by
  constructor
  · decide
  · decide

/-- C5 (amended): `completion_check` sets the all-sections-complete flag
to true iff every name of the required-section list is a member of
`completedSections` (section contents are not inspected). -/
theorem C5_completion_membership (s : St) :
    (completion_check s).all_sections_complete = true ↔
      ∀ name ∈ required_sections, name ∈ s.completed_sections := by
  have hf : (completion_check s).all_sections_complete =
      required_sections.all (fun sec => s.completed_sections.contains sec) := rfl
  rw [hf, List.all_eq_true]
  constructor
  · intro h name hn
    exact List.elem_iff.mp (h name hn)
  · intro h name hn
    exact List.elem_iff.mpr (h name hn)

/-- C6 counterexample oracle: a free-text verdict that negates
sufficiency yet contains both trigger words as substrings. -/
def c6Oracle : Oracle :=
  { advOracle with
    validationResponse := "The survey is insufficient and it is not comprehensive." }

/-- C6 counterexample: `validation_check` performs no structured
parsing; on the unparseable free-text verdict "The survey is
insufficient and it is not comprehensive." the substring heuristic sets
`validation_passed = true` and the router sends the run to drafting —
refuting "an unparseable verdict always routes the run toward another
research pass". -/
theorem C6_counterexample :
    (validation_check (initState "t") c6Oracle).validation_passed = true ∧
    route_after_validation (validation_check (initState "t") c6Oracle) =
      "draft_section" := by
  constructor
  · decide
  · decide

/-- C6 (amended): `validation_check` sets `validation_passed` to true
iff the lowercased stripped response contains both "sufficient" and
"comprehensive" as substrings (there is no structured verdict and no gap
list in `validation_result`), and the router chooses drafting exactly
when that flag is set. -/
theorem C6_validation_heuristic (s : St) (o : Oracle) :
    ((validation_check s o).validation_passed = true ↔
      ((∃ l r, l ++ ("sufficient".data ++ r) =
          (pyLower (pyStrip o.validationResponse)).data) ∧
       (∃ l r, l ++ ("comprehensive".data ++ r) =
          (pyLower (pyStrip o.validationResponse)).data))) ∧
    (route_after_validation (validation_check s o) = "draft_section" ↔
      (validation_check s o).validation_passed = true) := by
  constructor
  · have hv : (validation_check s o).validation_passed =
        (containsSubstr (pyLower (pyStrip o.validationResponse)) "sufficient" &&
         containsSubstr (pyLower (pyStrip o.validationResponse)) "comprehensive") := rfl
    rw [hv, Bool.and_eq_true, containsSubstr_iff, containsSubstr_iff]
  · cases h : (validation_check s o).validation_passed
    · simp only [route_after_validation, h, if_neg]
      constructor
      · intro hc
        exact absurd hc (by decide)
      · intro hc
        exact absurd hc (by decide)
    · simp [route_after_validation, h]

/-- C7: `targeted_research` is a no-op on an empty gap dict; on a
non-empty gap dict it removes exactly the first-inserted gap entry,
leaves the remaining entries unchanged, appends the synthesized addendum
to `literature_summary`, and appends one retrieval response and its
deduplicated formatted digest to the source collections. -/
theorem C7_targeted_research_spec (s : St) (o : Oracle) :
    (s.knowledge_gaps = [] → targeted_research s o = s) ∧
    (∀ k g rest, s.knowledge_gaps = (k, g) :: rest →
      (targeted_research s o).knowledge_gaps = rest ∧
      (targeted_research s o).literature_summary =
        some (pyStr s.literature_summary ++ "\n\nAdditional Research on " ++
          g.description.getD "Knowledge Gap" ++ ":\n" ++
          pyStrip o.targetedSummaryResponse) ∧
      (∃ r, (targeted_research s o).web_research_results =
          s.web_research_results ++ [r] ∧
        (targeted_research s o).sources_gathered =
          s.sources_gathered ++ [deduplicate_and_format_sources r 1000 true])) := by
  constructor
  · intro h
    simp [targeted_research, h]
  · intro k g rest h
    refine ⟨?_, ?_, ?_⟩
    · simp [targeted_research, h]
    · simp [targeted_research, h]
    · refine ⟨tavily_search o.targetedSearchBackend
        (match o.targetedQueryParse with
         | some q => q
         | none => "research " ++ g.description.getD s.research_topic) true 3, ?_, ?_⟩
      · simp [targeted_research, h]
      · simp [targeted_research, h]

/-- C7 sample gap used by the witness. -/
def c7Gap : Gap :=
  { description := some "d", importance := none, research_questions := [] }

/-- C7 witness: the no-op branch on the fresh state and the
gap-removing branch on a one-gap state. -/
theorem C7_targeted_research_spec_witness :
    targeted_research (initState "t") advOracle = initState "t" ∧
    (targeted_research { initState "t" with knowledge_gaps := [("gap_1", c7Gap)] }
        advOracle).knowledge_gaps = [] :=
  ⟨(C7_targeted_research_spec (initState "t") advOracle).1 rfl,
   ((C7_targeted_research_spec
      { initState "t" with knowledge_gaps := [("gap_1", c7Gap)] } advOracle).2
      "gap_1" c7Gap [] rfl).1⟩

/-- C8: `draft_section` clamps the section pointer at the last index of
the fixed order — on a state whose current section is `references`
(the last section), re-invoking it leaves `current_section`
unchanged. -/
theorem C8_draft_section_clamp (s : St) (o : Oracle)
    (h : s.current_section = "references") :
    (draft_section s o).current_section = "references" := by
  have hc : (draft_section s o).current_section = nextSection s.current_section := rfl
  rw [hc, h]
  decide

/-- C8 witness: the clamp at a concrete state sitting on the last
section. -/
theorem C8_draft_section_clamp_witness :
    (draft_section { initState "t" with current_section := "references" }
        advOracle).current_section = "references" :=
  C8_draft_section_clamp { initState "t" with current_section := "references" }
    advOracle rfl

/-- C9: when the current-section name is not among the eight names of
the fixed order, `draft_section` sets the pointer to `conclusion` (the
`ValueError` fallback of graph.py lines 397-399). -/
theorem C9_unknown_section_fallback (s : St) (o : Oracle)
    (h : s.current_section ∉ section_order) :
    (draft_section s o).current_section = "conclusion" := by
  have hc : (draft_section s o).current_section = nextSection s.current_section := rfl
  rw [hc]
  unfold nextSection
  rw [findIdx?_beq_eq_none h 0]

/-- C9 witness: the fallback at a concrete unknown section name. -/
theorem C9_unknown_section_fallback_witness :
    (draft_section { initState "t" with current_section := "prelude" }
        advOracle).current_section = "conclusion" :=
  C9_unknown_section_fallback { initState "t" with current_section := "prelude" }
    advOracle (by decide)

/-- C10: `completed_sections` of every reachable engine configuration
has no duplicate entries — `draft_section` appends a name only when
absent and no other stage writes the list. -/
theorem C10_completed_sections_nodup (ns : Node × St) (h : Reachable ns) :
    ns.2.completed_sections.Nodup :=
  (reachable_masterInv ns h).2.1

/-- C10 witness: the invariant instantiated at the initial
configuration. -/
theorem C10_completed_sections_nodup_witness :
    (initState "t").completed_sections.Nodup :=
  C10_completed_sections_nodup (.initialize_research, initState "t")
    (Reachable.init "t")

end Walker
